import Mathlib

/-!
Shallow embedding of src/api/index.py (py-exam-cli FastAPI backend):
submission validation and storage (submit_exam), batch aggregation
(download_batch) and single download (download_single). Strings are
modelled as lists of characters, byte blobs as lists of naturals. The
zipfile library and the network are modelled as explicit function
parameters: a parameter z of type Bytes to Except Str (List ZEntry)
stands for opening a blob with zipfile.ZipFile and reading every entry
(error means BadZipFile carrying its message), and a parameter fetch of
type Str to Except Str Bytes stands for requests.get on a url followed
by raise_for_status (error means a fetch failure carrying its message).
-/

namespace PyExam

/-- Python strings, modelled as lists of characters. -/
abbrev Str : Type := List Char

/-- Byte blobs, modelled as lists of naturals. -/
abbrev Bytes : Type := List Nat

/-- Characters of a Lean string literal, used to write concrete Python strings. -/
def str (s : String) : Str := s.data

/-- Text stored as bytes, as zipfile writestr encodes text entries. -/
def encode (s : Str) : Bytes := s.map Char.toNat

/-- Zip entry: entry path and decompressed content. -/
abbrev ZEntry : Type := Str × Bytes

/-- Source line 47: the 10 MiB size limit. -/
def MAX_FILE_SIZE : Nat := 10 * 1024 * 1024

/-- Source lines 160 to 164: the content type whitelist of submit_exam. -/
def valid_content_types : List Str :=
  [ str "application/zip",
    str "application/x-zip-compressed",
    str "application/octet-stream" ]

/-- Python s.endswith(suffix). -/
def endswith (s suffix : Str) : Bool := suffix.isSuffixOf s

/-- Python os.path.basename on posix paths, which is also what
pathname.split(slash)[-1] computes at source line 302: the part of the
path after the last slash. -/
def basename (p : Str) : Str := (p.reverse.takeWhile (fun c => c != '/')).reverse

/-- Python s.strip(): the string without leading and trailing whitespace. -/
def pystrip (s : Str) : Str :=
  ((s.dropWhile Char.isWhitespace).reverse.dropWhile Char.isWhitespace).reverse

/-- Python s.replace(old, new) for nonempty old, with fuel for
termination: scan left to right and replace each non-overlapping
occurrence. Any fuel of at least the length of s gives the Python
result. -/
def replaceFuel (old new : Str) : Nat → Str → Str
  | 0, s => s
  | fuel + 1, s =>
    if old.isPrefixOf s then new ++ replaceFuel old new fuel (s.drop old.length)
    else
      match s with
      | [] => []
      | c :: rest => c :: replaceFuel old new fuel rest

/-- Python s.replace(old, new). An empty old interleaves new around every
character, which is the CPython behaviour; a nonempty old is handled by
replaceFuel with enough fuel. -/
def pyreplace (s old new : Str) : Str :=
  if old = [] then new ++ s.flatMap (fun c => c :: new)
  else replaceFuel old new s.length s

/-- Source lines 299 to 303 of download_batch: the student id is the last
component of the blob pathname with every occurrence of the exam code
followed by an underscore, and then every occurrence of ".zip", removed
by str.replace. -/
def student_id_of (exam_code pathname : Str) : Str :=
  pyreplace (pyreplace (basename pathname) (exam_code ++ ['_']) []) (str ".zip") []

/-- Blob listing entry as returned by the vercel_blob list call: pathname
and url. -/
structure Blob where
  pathname : Str
  url : Str
  deriving DecidableEq

/-- Request body of POST /api/download-batch, source lines 36 to 38. -/
structure BatchDownloadRequest where
  exam_code : Str
  secret : Str

/-- Request body of POST /api/download-single, source lines 41 to 44. -/
structure SingleDownloadRequest where
  exam_code : Str
  student_id : Str
  secret : Str

/-- Upload received by POST /api/submit: declared content type, declared
filename and the raw bytes. -/
structure UploadFile where
  content_type : Str
  filename : Str
  content : Bytes

/-- Outcome of submit_exam, source lines 151 to 248: one constructor per
HTTP 400 rejection branch, and stored p for a validated upload handed to
the blob store under path p. The put call itself is an external
collaborator; its failure branch at line 233 yields a 500 without
changing p, so it is not modelled. -/
inductive SubmitResult where
  | unsupportedType
  | badFilename
  | tooLarge
  | empty
  | corrupt
  | stored (path : Str)
  deriving DecidableEq

/-- Source lines 159 to 220 of submit_exam: the validation chain in source
order (content type, filename, size, emptiness, zip structure) and the
storage path derived with os.path.basename at lines 208 to 210. -/
def submit_exam (z : Bytes → Except Str (List ZEntry)) (f : UploadFile) : SubmitResult :=
  if f.content_type ∉ valid_content_types then .unsupportedType
  else if f.filename = [] ∨ endswith f.filename (str ".zip") = false then .badFilename
  else if MAX_FILE_SIZE < f.content.length then .tooLarge
  else if f.content.length = 0 then .empty
  else
    match z f.content with
    | .error _ => .corrupt
    | .ok _ => .stored (str "submissions/" ++ basename f.filename)

/-- Source lines 258 to 259 and 353 to 354: env models
os.environ.get("DOWNLOAD_SECRET"), none when unset. The Python guard
"not download_secret or download_secret != request.secret" raises 401
exactly when this returns false. -/
def secret_ok (env : Option Str) (reqSecret : Str) : Bool :=
  match env with
  | none => false
  | some s => !s.isEmpty && decide (s = reqSecret)

/-- Error entry written by the aggregation loop at source lines 319 to
321. -/
def errEntry (sid msg : Str) : ZEntry :=
  (sid ++ '/' :: str "_ERROR.txt",
   encode (str "Error processing submission: " ++ msg ++ [Char.ofNat 10]))

/-- Aggregation loop of download_batch, source lines 290 to 322, with the
Python variable student_id threaded explicitly as the last argument: it
is assigned only after a successful fetch, so the except handler at
lines 317 to 322 sees the value from the previous iteration, and no
value at all when the first fetch fails, which raises UnboundLocalError
and is modelled as the result none. -/
def processBlobs (ec : Str) (fetch : Str → Except Str Bytes)
    (z : Bytes → Except Str (List ZEntry)) :
    List Blob → Option Str → Option (List ZEntry)
  | [], _ => some []
  | b :: rest, last =>
    match fetch b.url with
    | .error msg =>
      match last with
      | none => none
      | some sid =>
        (processBlobs ec fetch z rest (some sid)).map (fun es => errEntry sid msg :: es)
    | .ok bs =>
      let sid := student_id_of ec b.pathname
      match z bs with
      | .error msg =>
        (processBlobs ec fetch z rest (some sid)).map (fun es => errEntry sid msg :: es)
      | .ok entries =>
        (processBlobs ec fetch z rest (some sid)).map
          (fun es => entries.map (fun e => (sid ++ '/' :: e.1, e.2)) ++ es)

/-- HTTP outcome of POST /api/download-batch. -/
inductive BatchResult where
  | unauthorized
  | badRequest
  | notFound
  | serverError
  | ok (entries : List ZEntry)
  deriving DecidableEq

/-- Source lines 251 to 343: secret check, exam code check, listing by
the prefix built at line 273, 404 on an empty listing, then the
aggregation loop; an exception escaping the loop is caught at line 339
and becomes a 500. The blob store listing is modelled as the stored
blobs whose pathname starts with the prefix. -/
def download_batch (env : Option Str) (req : BatchDownloadRequest) (store : List Blob)
    (fetch : Str → Except Str Bytes) (z : Bytes → Except Str (List ZEntry)) : BatchResult :=
  if secret_ok env req.secret = false then .unauthorized
  else if req.exam_code = [] ∨ pystrip req.exam_code = [] then .badRequest
  else
    let blobs := store.filter
      (fun b => (str "submissions/" ++ req.exam_code ++ ['_']).isPrefixOf b.pathname)
    if blobs.isEmpty then .notFound
    else
      match processBlobs req.exam_code fetch z blobs none with
      | none => .serverError
      | some es => .ok es

/-- HTTP outcome of POST /api/download-single. -/
inductive SingleResult where
  | unauthorized
  | badRequest
  | notFound
  | serverError
  | ok (data : Bytes)
  deriving DecidableEq

/-- Python s.lower(), as applied to the error message at source line 417. -/
def lower (s : Str) : Str := s.map Char.toLower

/-- Exact blob path requested by download_single, source line 374. -/
def single_path (req : SingleDownloadRequest) : Str :=
  str "submissions/" ++ req.exam_code ++ '_' :: req.student_id ++ str ".zip"

/-- Source lines 346 to 426: secret and parameter checks, listing with the
exact path as the prefix, search for an exact pathname match (404 when
absent, also when the matched blob has a falsy url, line 389), then the
fetch of the match; a fetch error whose lowercased message contains
not_found becomes a 404 at line 418, any other exception a 500. -/
def download_single (env : Option Str) (req : SingleDownloadRequest) (store : List Blob)
    (fetch : Str → Except Str Bytes) : SingleResult :=
  if secret_ok env req.secret = false then .unauthorized
  else if req.exam_code = [] ∨ pystrip req.exam_code = [] then .badRequest
  else if req.student_id = [] ∨ pystrip req.student_id = [] then .badRequest
  else
    match (store.filter (fun b => (single_path req).isPrefixOf b.pathname)).find?
        (fun b => b.pathname == single_path req) with
    | none => .notFound
    | some b =>
      if b.url = [] then .notFound
      else
        match fetch b.url with
        | .ok d => .ok d
        | .error msg =>
          if List.IsInfix (str "not_found") (lower msg) then .notFound else .serverError

/-- Rejection reasons of the ArchiveValidator contract in section 4.1 of
the spec. -/
inductive Reason where
  | unsupportedType
  | badFilename
  | tooLarge
  | empty
  | corrupt
  deriving DecidableEq

/-- Rejection carried by a SubmitResult, none for a stored submission. -/
def rejectionOf : SubmitResult → Option Reason
  | .unsupportedType => some .unsupportedType
  | .badFilename => some .badFilename
  | .tooLarge => some .tooLarge
  | .empty => some .empty
  | .corrupt => some .corrupt
  | .stored _ => none

/-- Reason of the first failing check in a list of (passed, reason)
pairs. -/
def firstFailure (cs : List (Bool × Reason)) : Option Reason :=
  (cs.find? (fun c => !c.1)).map (fun c => c.2)

/-- Spec-side definition for C6, following the words of section 4.1 of the
spec: the checks of ArchiveValidator in their stated order - content type
whitelist, then filename, then byte length, then structural validity -
to be short-circuited at the first failure by firstFailure. -/
def spec_checks (z : Bytes → Except Str (List ZEntry)) (f : UploadFile) :
    List (Bool × Reason) :=
  [ (decide (f.content_type ∈ valid_content_types), Reason.unsupportedType),
    (decide (¬ (f.filename = [] ∨ endswith f.filename (str ".zip") = false)),
      Reason.badFilename),
    (decide (f.content.length ≤ MAX_FILE_SIZE), Reason.tooLarge),
    (decide (f.content.length ≠ 0), Reason.empty),
    ((z f.content).toBool, Reason.corrupt) ]

/-- Spec-side definition for C8, following the words of the claim: strip
only a leading exam code prefix and only a trailing ".zip" suffix from
the filename. -/
def stripOnly (exam_code fn : Str) : Str :=
  let p := exam_code ++ ['_']
  let s1 := if p.isPrefixOf fn then fn.drop p.length else fn
  if (str ".zip").isSuffixOf s1 then s1.take (s1.length - 4) else s1

/-- First path segment of a zip entry path. -/
def namespaceOf (p : Str) : Str := p.takeWhile (fun c => c != '/')

/-- Per-source block of the aggregate archive: what the loop body of
download_batch adds for one blob whose fetch succeeds (a fetch failure
contributes no block of its own; the loop mishandles it). -/
def perSource (ec : Str) (fetch : Str → Except Str Bytes)
    (z : Bytes → Except Str (List ZEntry)) (b : Blob) : List ZEntry :=
  match fetch b.url with
  | .error _ => []
  | .ok bs =>
    match z bs with
    | .error msg => [errEntry (student_id_of ec b.pathname) msg]
    | .ok entries => entries.map (fun e => (student_id_of ec b.pathname ++ '/' :: e.1, e.2))

/-- Condition on a source under which the loop handles it correctly and
its namespace cannot vanish from the aggregate: the fetch succeeds and
the blob is either an invalid archive or a valid archive with at least
one entry. -/
def sourceOk (fetch : Str → Except Str Bytes)
    (z : Bytes → Except Str (List ZEntry)) (b : Blob) : Bool :=
  match fetch b.url with
  | .error _ => false
  | .ok bs =>
    match z bs with
    | .error _ => true
    | .ok entries => !entries.isEmpty

/-- Zip model instance that rejects every byte string. -/
def zipRejectAll : Bytes → Except Str (List ZEntry) :=
  fun _ => Except.error (str "File is not a zip file")

/-- Zip model instance that opens every byte string as an archive with no
entries. -/
def zipOkEmpty : Bytes → Except Str (List ZEntry) :=
  fun _ => Except.ok []

/-- Fetch model instance that fails on every url. -/
def fetchFail : Str → Except Str Bytes := fun _ => Except.error (str "boom")

/-- Fetch model instance that returns the url itself, encoded, as the
body. -/
def fetchEcho : Str → Except Str Bytes := fun u => Except.ok (encode u)

/-- Zip model instance for the C2 witness: the blob fetched from url u1
is a one-entry archive, every other blob is invalid. -/
def zipW : Bytes → Except Str (List ZEntry) :=
  fun bs =>
    if bs = encode (str "u1") then Except.ok [(str "main.py", [1])]
    else Except.error (str "bad")

/-- Store for the C2 witness: two blobs of exam EX with distinct student
ids. -/
def blobsW : List Blob :=
  [ ⟨str "submissions/EX_1.zip", str "u1"⟩, ⟨str "submissions/EX_2.zip", str "u2"⟩ ]

/-- Helper: takeWhile over an append whose first part satisfies the
predicate throughout. -/
theorem takeWhile_append_all {α : Type} (q : α → Bool) :
    ∀ (a l : List α), (∀ c ∈ a, q c = true) → (a ++ l).takeWhile q = a ++ l.takeWhile q
  | [], l, _ => by simp
  | c :: a, l, h => by
    have hc : q c = true := h c (by simp)
    simp only [List.cons_append, List.takeWhile_cons, hc, if_true]
    rw [takeWhile_append_all q a l (fun x hx => h x (by simp [hx]))]

/-- Helper: the basename of a path contains no slash. -/
theorem not_slash_mem_basename (p : Str) : '/' ∉ basename p := by
  intro h
  rw [basename, List.mem_reverse] at h
  have := List.mem_takeWhile_imp h
  simp at this

/-- Helper: replacing occurrences by the empty string only deletes
characters. -/
theorem replaceFuel_nil_sublist (old : Str) :
    ∀ (fuel : Nat) (s : Str), List.Sublist (replaceFuel old [] fuel s) s
  | 0, s => by rw [replaceFuel.eq_def]
  | fuel + 1, s => by
    rw [replaceFuel.eq_def]
    by_cases h : old.isPrefixOf s = true
    · simp only [h, if_true, List.nil_append]
      exact (replaceFuel_nil_sublist old fuel (s.drop old.length)).trans
        (List.drop_sublist _ _)
    · simp only [h, if_false]
      match s with
      | [] => exact List.Sublist.refl []
      | c :: rest => exact (replaceFuel_nil_sublist old fuel rest).cons₂ c

/-- Helper: pyreplace with an empty replacement only deletes characters. -/
theorem pyreplace_nil_sublist (s old : Str) : List.Sublist (pyreplace s old []) s := by
  rw [pyreplace]
  by_cases h : old = []
  · have : s.flatMap (fun c => c :: ([] : Str)) = s := by
      induction s with
      | nil => rfl
      | cons c rest ih => simp [List.flatMap_cons, ih]
    simp [h, this]
  · simp only [h, if_false]
    exact replaceFuel_nil_sublist old s.length s

/-- Helper: the derived student id contains no slash. -/
theorem not_slash_student_id (ec p : Str) : '/' ∉ student_id_of ec p := by
  intro h
  exact not_slash_mem_basename p
    ((pyreplace_nil_sublist _ _).subset ((pyreplace_nil_sublist _ _).subset h))

/-- Helper: the first path segment of sid/rest is sid when sid is
slash-free. -/
theorem namespaceOf_sid_append (sid r : Str) (h : '/' ∉ sid) :
    namespaceOf (sid ++ '/' :: r) = sid := by
  rw [namespaceOf, takeWhile_append_all _ sid ('/' :: r)
    (fun c hc => bne_iff_ne.mpr (fun he => h (by rw [← he]; exact hc)))]
  simp [List.takeWhile_cons]

/-- Helper: a filename ending in ".zip" has a basename of the form
s ++ ".zip". -/
theorem basename_of_endswith (fn : Str) (h : endswith fn (str ".zip") = true) :
    ∃ s, basename fn = s ++ str ".zip" := by
  rw [endswith, List.isSuffixOf_iff_suffix] at h
  rcases h with ⟨t, ht⟩
  refine ⟨((t.reverse).takeWhile (fun c => c != '/')).reverse, ?_⟩
  rw [basename, ← ht, List.reverse_append,
    takeWhile_append_all _ ((str ".zip").reverse) t.reverse (by decide),
    List.reverse_append, List.reverse_reverse]

/-- Helper: under sourceOk for every listed blob, the aggregation loop
never aborts and produces exactly the concatenation of the per-source
blocks, whatever the threaded student_id value. -/
theorem processBlobs_eq_flatMap (ec : Str) (fetch : Str → Except Str Bytes)
    (z : Bytes → Except Str (List ZEntry)) (blobs : List Blob) :
    ∀ (last : Option Str), (∀ b ∈ blobs, sourceOk fetch z b = true) →
      processBlobs ec fetch z blobs last = some (blobs.flatMap (perSource ec fetch z)) := by
  induction blobs with
  | nil => intro last _; rfl
  | cons b rest ih =>
    intro last h
    have hb : sourceOk fetch z b = true := h b (by simp)
    have hrest : ∀ x ∈ rest, sourceOk fetch z x = true := fun x hx => h x (by simp [hx])
    cases hf : fetch b.url with
    | error msg => rw [sourceOk, hf] at hb; simp at hb
    | ok bs =>
      cases hz : z bs with
      | error msg =>
        simp only [processBlobs, List.flatMap_cons, perSource, hf, hz]
        rw [ih (some (student_id_of ec b.pathname)) hrest]
        rfl
      | ok entries =>
        simp only [processBlobs, List.flatMap_cons, perSource, hf, hz]
        rw [ih (some (student_id_of ec b.pathname)) hrest]
        rfl

/-- Helper: under sourceOk, the per-source block of a blob is nonempty. -/
theorem perSource_ne_nil (ec : Str) (fetch : Str → Except Str Bytes)
    (z : Bytes → Except Str (List ZEntry)) (b : Blob)
    (hb : sourceOk fetch z b = true) : perSource ec fetch z b ≠ [] := by
  cases hf : fetch b.url with
  | error msg => rw [sourceOk, hf] at hb; simp at hb
  | ok bs =>
    cases hz : z bs with
    | error msg => simp [perSource, hf, hz]
    | ok entries =>
      simp only [sourceOk, hf, hz] at hb
      cases entries with
      | nil => simp at hb
      | cons a as => simp [perSource, hf, hz]

/-- Helper: every entry of a per-source block is the derived student id,
a slash, and a remainder. -/
theorem perSource_shape (ec : Str) (fetch : Str → Except Str Bytes)
    (z : Bytes → Except Str (List ZEntry)) (b : Blob) (e : ZEntry)
    (he : e ∈ perSource ec fetch z b) :
    ∃ r, e.1 = student_id_of ec b.pathname ++ '/' :: r := by
  cases hf : fetch b.url with
  | error msg => simp [perSource, hf] at he
  | ok bs =>
    cases hz : z bs with
    | error msg =>
      simp only [perSource, hf, hz, List.mem_singleton] at he
      exact ⟨str "_ERROR.txt", by rw [he]; rfl⟩
    | ok entries =>
      simp only [perSource, hf, hz] at he
      rcases List.mem_map.mp he with ⟨a, _, ha⟩
      exact ⟨a.1, by rw [← ha]⟩

/-- Helper: every entry of a per-source block lies in the namespace of the
derived student id of its own source. -/
theorem perSource_namespace (ec : Str) (fetch : Str → Except Str Bytes)
    (z : Bytes → Except Str (List ZEntry)) (b : Blob) (e : ZEntry)
    (he : e ∈ perSource ec fetch z b) :
    namespaceOf e.1 = student_id_of ec b.pathname := by
  rcases perSource_shape ec fetch z b e he with ⟨r, hr⟩
  rw [hr]
  exact namespaceOf_sid_append _ _ (not_slash_student_id ec b.pathname)

/-- C10: the content type whitelist of submission validation contains
exactly application/zip, application/x-zip-compressed and
application/octet-stream, and an upload is rejected as UnsupportedType
precisely when its declared content type is not one of these three. -/
theorem content_type_whitelist :
    valid_content_types =
      [ str "application/zip", str "application/x-zip-compressed",
        str "application/octet-stream" ] ∧
    ∀ (z : Bytes → Except Str (List ZEntry)) (f : UploadFile),
      (submit_exam z f = SubmitResult.unsupportedType ↔
        f.content_type ∉ valid_content_types) := by
  refine ⟨rfl, fun z f => ⟨fun h => ?_, fun hnot => ?_⟩⟩
  · by_contra hmem
    rw [submit_exam, if_neg (by simpa using hmem)] at h
    split_ifs at h
    revert h
    cases z f.content <;> simp
  · rw [submit_exam, if_pos hnot]

/-- C6: submission validation checks content type, filename, byte length
and structural zip validity in that fixed order, short-circuiting at the
first failure: the rejection returned by submit_exam equals the first
failing check of the spec-side ordered check list, for every input. -/
theorem submit_matches_spec_order (z : Bytes → Except Str (List ZEntry)) (f : UploadFile) :
    rejectionOf (submit_exam z f) = firstFailure (spec_checks z f) := by
  rw [submit_exam, spec_checks, firstFailure]
  by_cases h1 : f.content_type ∈ valid_content_types
  case neg => simp [h1, rejectionOf]
  case pos =>
    rw [if_neg (by simpa using h1)]
    by_cases h2 : f.filename = [] ∨ endswith f.filename (str ".zip") = false
    · simp [h1, h2, rejectionOf]
    · rw [if_neg h2]
      by_cases h3 : MAX_FILE_SIZE < f.content.length
      · have h3' : ¬ f.content.length ≤ MAX_FILE_SIZE := by omega
        simp [h1, h2, h3, h3', rejectionOf]
      · rw [if_neg h3]
        have h3' : f.content.length ≤ MAX_FILE_SIZE := by omega
        by_cases h4 : f.content.length = 0
        · simp [h1, h2, h3', h4, rejectionOf]
        · rw [if_neg h4]
          cases hz : z f.content with
          | error msg =>
            simp [h1, h2, h3', h4, hz, rejectionOf, Except.toBool]
          | ok entries =>
            simp [h1, h2, h3', h4, hz, rejectionOf, Except.toBool]

/-- C5: for uploads passing the content type and filename checks, empty
content is rejected as Empty, content over 10 MiB as TooLarge, and
content of exactly 10 MiB is rejected by neither size check. -/
theorem submit_size_boundary (z : Bytes → Except Str (List ZEntry)) (f : UploadFile)
    (hct : f.content_type ∈ valid_content_types)
    (hfn : ¬ (f.filename = [] ∨ endswith f.filename (str ".zip") = false)) :
    (f.content.length = 0 → submit_exam z f = SubmitResult.empty) ∧
    (MAX_FILE_SIZE < f.content.length → submit_exam z f = SubmitResult.tooLarge) ∧
    (f.content.length = MAX_FILE_SIZE →
      submit_exam z f ≠ SubmitResult.empty ∧ submit_exam z f ≠ SubmitResult.tooLarge) := by
  have hMAX : MAX_FILE_SIZE = 10485760 := rfl
  refine ⟨fun h0 => ?_, fun hL => ?_, fun hM => ?_⟩
  · rw [submit_exam, if_neg (by simpa using hct), if_neg hfn, if_neg (by omega), if_pos h0]
  · rw [submit_exam, if_neg (by simpa using hct), if_neg hfn, if_pos hL]
  · rw [submit_exam, if_neg (by simpa using hct), if_neg hfn, if_neg (by omega),
      if_neg (by omega)]
    cases z f.content <;> simp

/-- C5 witness: with a whitelisted content type and a zip filename, empty
bytes are rejected as Empty, and bytes of exactly 10 MiB are not
rejected as TooLarge. -/
theorem submit_size_boundary_witness :
    submit_exam zipRejectAll ⟨str "application/zip", str "a.zip", []⟩ = SubmitResult.empty ∧
    submit_exam zipRejectAll
      ⟨str "application/zip", str "a.zip", List.replicate MAX_FILE_SIZE 0⟩ ≠
      SubmitResult.tooLarge :=
  ⟨(submit_size_boundary zipRejectAll ⟨str "application/zip", str "a.zip", []⟩
      (by decide) (by decide)).1 rfl,
   ((submit_size_boundary zipRejectAll
      ⟨str "application/zip", str "a.zip", List.replicate MAX_FILE_SIZE 0⟩
      (by decide) (by decide)).2.2 (by simp)).2⟩

/-- C3 counterexample: bytes that are not a valid zip archive, submitted
with an unlisted content type, are rejected as UnsupportedType rather
than Corrupt - the zip check is not reached, so the rejection does
depend on the declared content type. -/
theorem invalid_zip_not_corrupt_counterexample :
    (zipRejectAll [0]).toBool = false ∧
    submit_exam zipRejectAll ⟨str "text/plain", str "a.zip", [0]⟩ =
      SubmitResult.unsupportedType ∧
    SubmitResult.unsupportedType ≠ SubmitResult.corrupt := by decide

/-- C3 amended: bytes that fail to open as a zip archive are rejected as
Corrupt provided the earlier checks pass - a whitelisted content type, a
nonempty filename ending in .zip, and a byte length that is positive and
at most 10 MiB. -/
theorem invalid_zip_rejected_corrupt (z : Bytes → Except Str (List ZEntry)) (f : UploadFile)
    (hct : f.content_type ∈ valid_content_types)
    (hfn : ¬ (f.filename = [] ∨ endswith f.filename (str ".zip") = false))
    (hsize : f.content.length ≤ MAX_FILE_SIZE)
    (hne : f.content.length ≠ 0)
    (hz : (z f.content).toBool = false) :
    submit_exam z f = SubmitResult.corrupt := by
  rw [submit_exam, if_neg (by simpa using hct), if_neg hfn, if_neg (by omega), if_neg hne]
  cases hzc : z f.content with
  | error msg => rfl
  | ok entries => rw [hzc] at hz; exact absurd hz (by simp [Except.toBool])

/-- C3 amended witness: concrete invalid bytes with a whitelisted type and
zip filename are rejected as Corrupt. -/
theorem invalid_zip_rejected_corrupt_witness :
    submit_exam zipRejectAll ⟨str "application/zip", str "a.zip", [0]⟩ =
      SubmitResult.corrupt :=
  invalid_zip_rejected_corrupt zipRejectAll ⟨str "application/zip", str "a.zip", [0]⟩
    (by decide) (by decide) (by decide) (by decide) (by decide)

/-- C7: every accepted submission is stored under a path of the form
submissions/SID.zip with SID free of slashes, which is the legacy form
of the claim and subsumes the examCode underscore form: the path never
leaves the submissions namespace and always keeps the zip extension. -/
theorem submit_stored_path_shape (z : Bytes → Except Str (List ZEntry)) (f : UploadFile)
    (p : Str) (h : submit_exam z f = SubmitResult.stored p) :
    ∃ sid, p = str "submissions/" ++ sid ++ str ".zip" ∧ '/' ∉ sid := by
  rw [submit_exam] at h
  split_ifs at h with h1 h2 h3 h4
  cases hzc : z f.content with
  | error msg => rw [hzc] at h; exact absurd h (by simp)
  | ok entries =>
    rw [hzc] at h
    simp only [SubmitResult.stored.injEq] at h
    have hzip : endswith f.filename (str ".zip") = true := by
      rcases not_or.mp h2 with ⟨-, hz2⟩
      cases hE : endswith f.filename (str ".zip")
      · exact absurd hE hz2
      · rfl
    rcases basename_of_endswith f.filename hzip with ⟨s, hs⟩
    refine ⟨s, ?_, ?_⟩
    · rw [← h, hs, List.append_assoc]
    · intro hmem
      exact not_slash_mem_basename f.filename (by rw [hs]; exact List.mem_append_left _ hmem)

/-- C7 witness: a concrete accepted upload with filename a.zip is stored
under submissions/a.zip, which has the stated shape. -/
theorem submit_stored_path_shape_witness :
    ∃ sid, str "submissions/a.zip" = str "submissions/" ++ sid ++ str ".zip" ∧ '/' ∉ sid :=
  submit_stored_path_shape zipOkEmpty ⟨str "application/zip", str "a.zip", [0]⟩
    (str "submissions/a.zip") rfl

/-- C4 counterexample: with the download secret absent from the process
environment, both instructor endpoints return 401 Unauthorized, not the
500 configuration error the claim states. -/
theorem missing_secret_counterexample :
    download_batch none ⟨str "EX", str "s"⟩ [] fetchFail zipOkEmpty =
      BatchResult.unauthorized ∧
    download_single none ⟨str "EX", str "1", str "s"⟩ [] fetchFail =
      SingleResult.unauthorized ∧
    BatchResult.unauthorized ≠ BatchResult.serverError ∧
    SingleResult.unauthorized ≠ SingleResult.serverError := by decide

/-- C4 amended: when the configured download secret is absent, both
download endpoints fail with 401, exactly as with a present but
mismatching secret; the absence is not distinguished as a 500. -/
theorem missing_secret_unauthorized (reqB : BatchDownloadRequest)
    (reqS : SingleDownloadRequest) (store : List Blob)
    (fetch : Str → Except Str Bytes) (z : Bytes → Except Str (List ZEntry)) (s : Str)
    (hb : s ≠ reqB.secret) (hs : s ≠ reqS.secret) :
    download_batch none reqB store fetch z = BatchResult.unauthorized ∧
    download_single none reqS store fetch = SingleResult.unauthorized ∧
    download_batch (some s) reqB store fetch z = BatchResult.unauthorized ∧
    download_single (some s) reqS store fetch = SingleResult.unauthorized := by
  have hb' : secret_ok (some s) reqB.secret = false := by simp [secret_ok, hb]
  have hs' : secret_ok (some s) reqS.secret = false := by simp [secret_ok, hs]
  have hnb : secret_ok none reqB.secret = false := rfl
  have hns : secret_ok none reqS.secret = false := rfl
  refine ⟨?_, ?_, ?_, ?_⟩
  · rw [download_batch, if_pos hnb]
  · rw [download_single, if_pos hns]
  · rw [download_batch, if_pos hb']
  · rw [download_single, if_pos hs']

/-- C4 amended witness: concrete requests against an unset environment
secret and against a mismatching one all yield 401. -/
theorem missing_secret_unauthorized_witness :
    download_batch none ⟨str "EX", str "a"⟩ [] fetchFail zipOkEmpty =
      BatchResult.unauthorized ∧
    download_single none ⟨str "EX", str "1", str "a"⟩ [] fetchFail =
      SingleResult.unauthorized ∧
    download_batch (some (str "k")) ⟨str "EX", str "a"⟩ [] fetchFail zipOkEmpty =
      BatchResult.unauthorized ∧
    download_single (some (str "k")) ⟨str "EX", str "1", str "a"⟩ [] fetchFail =
      SingleResult.unauthorized :=
  missing_secret_unauthorized ⟨str "EX", str "a"⟩ ⟨str "EX", str "1", str "a"⟩ []
    fetchFail zipOkEmpty (str "k") (by decide) (by decide)

/-- C1: concrete evaluation of the aggregation defect - one listed source
whose fetch fails makes download_batch return a 500 server error instead
of writing the error entry and returning the 200 archive: the except
handler reads student_id before its first assignment, raising
UnboundLocalError, which escapes the loop. -/
theorem batch_first_fetch_failure_aborts :
    download_batch (some (str "s")) ⟨str "EX", str "s"⟩
      [⟨str "submissions/EX_1.zip", str "u"⟩] fetchFail zipOkEmpty =
      BatchResult.serverError ∧
    BatchResult.serverError ≠ BatchResult.ok [errEntry (str "1") (str "boom")] := by decide

/-- C2 counterexample: one listed source that is a valid zip archive with
no entries produces a combined archive with no entries at all, and so
with zero distinct namespaces for one listed source: the namespace count
can be smaller than the source count. -/
theorem batch_empty_zip_counterexample :
    download_batch (some (str "s")) ⟨str "EX", str "s"⟩
      [⟨str "submissions/EX_1.zip", str "u"⟩] fetchEcho zipOkEmpty = BatchResult.ok [] ∧
    (([] : List ZEntry).map (fun e => namespaceOf e.1)).toFinset.card = 0 ∧
    ([⟨str "submissions/EX_1.zip", str "u"⟩] : List Blob).length = 1 ∧
    (0 : Nat) ≠ 1 := by decide

/-- C2 amended: over listed sources whose fetches succeed, whose derived
student ids are pairwise distinct and which are each either an invalid
archive or a valid archive with at least one entry, the aggregation loop
succeeds, every output entry path is one slash-free namespace segment
derived from its own source followed by a slash and a remainder, and the
number of distinct entry namespaces equals the number of sources. -/
theorem batch_namespaces_amended (ec : Str) (fetch : Str → Except Str Bytes)
    (z : Bytes → Except Str (List ZEntry)) (blobs : List Blob) (last : Option Str)
    (hok : ∀ b ∈ blobs, sourceOk fetch z b = true)
    (hids : (blobs.map (fun b => student_id_of ec b.pathname)).Nodup) :
    ∃ es, processBlobs ec fetch z blobs last = some es ∧
      (∀ e ∈ es, ∃ b ∈ blobs, ∃ r, e.1 = student_id_of ec b.pathname ++ '/' :: r ∧
        '/' ∉ student_id_of ec b.pathname) ∧
      (es.map (fun e => namespaceOf e.1)).toFinset.card = blobs.length := by
  refine ⟨blobs.flatMap (perSource ec fetch z),
    processBlobs_eq_flatMap ec fetch z blobs last hok, ?_, ?_⟩
  · intro e he
    rcases List.mem_flatMap.mp he with ⟨b, hb, hpb⟩
    rcases perSource_shape ec fetch z b e hpb with ⟨r, hr⟩
    exact ⟨b, hb, r, hr, not_slash_student_id ec b.pathname⟩
  · have hset : ((blobs.flatMap (perSource ec fetch z)).map (fun e => namespaceOf e.1)).toFinset
        = (blobs.map (fun b => student_id_of ec b.pathname)).toFinset := by
      ext a
      simp only [List.mem_toFinset, List.mem_map, List.mem_flatMap]
      constructor
      · rintro ⟨e, ⟨b, hb, hpb⟩, rfl⟩
        exact ⟨b, hb, (perSource_namespace ec fetch z b e hpb).symm⟩
      · rintro ⟨b, hb, rfl⟩
        rcases List.exists_mem_of_ne_nil _ (perSource_ne_nil ec fetch z b (hok b hb))
          with ⟨e, he⟩
        exact ⟨e, ⟨b, hb, he⟩, perSource_namespace ec fetch z b e he⟩
    rw [hset, List.toFinset_card_of_nodup hids, List.length_map]

/-- C2 amended witness: two sources with distinct ids, one a one-entry
archive and one invalid, aggregate into entries under exactly two
namespaces. -/
theorem batch_namespaces_amended_witness :
    ∃ es, processBlobs (str "EX") fetchEcho zipW blobsW none = some es ∧
      (∀ e ∈ es, ∃ b ∈ blobsW, ∃ r, e.1 = student_id_of (str "EX") b.pathname ++ '/' :: r ∧
        '/' ∉ student_id_of (str "EX") b.pathname) ∧
      (es.map (fun e => namespaceOf e.1)).toFinset.card = blobsW.length :=
  batch_namespaces_amended (str "EX") fetchEcho zipW blobsW none (by decide) (by decide)

/-- C8 counterexample: with exam code aa_aa and stored filename
aa_aa_aa_X.zip, the filename contains the pattern aa_aa_ at a position
other than the start, yet the replace-all derivation and plain prefix
and suffix stripping agree, so the stated universal difference fails. -/
theorem student_id_overlap_counterexample :
    student_id_of (str "aa_aa") (str "submissions/aa_aa_aa_X.zip") =
      stripOnly (str "aa_aa") (str "aa_aa_aa_X.zip") ∧
    List.IsInfix (str "aa_aa" ++ ['_']) ((str "aa_aa_aa_X.zip").drop 1) := by decide

/-- C8 amended: the namespace is derived with Python str.replace, which
removes every non-overlapping occurrence of the exam code pattern and of
".zip"; there are stored filenames containing these substrings away from
the prefix and extension positions where this differs from stripping
only the prefix and the extension: for exam code EX and filename
EX_a.zip_b.zip the derivation yields a_b while stripping yields
a.zip_b. -/
theorem student_id_replace_all :
    student_id_of (str "EX") (str "submissions/EX_a.zip_b.zip") = str "a_b" ∧
    stripOnly (str "EX") (str "EX_a.zip_b.zip") = str "a.zip_b" ∧
    str "a_b" ≠ str "a.zip_b" ∧
    List.IsInfix (str ".zip") ((str "EX_a.zip_b.zip").take 10) := by decide

/-- C9: with a correct secret and nonblank parameters, download_single
returns 404 whenever no stored blob pathname equals the exact requested
path, so a stored blob whose pathname merely extends the requested path
is never returned for the shorter id. -/
theorem single_exact_match (env : Option Str) (req : SingleDownloadRequest)
    (store : List Blob) (fetch : Str → Except Str Bytes)
    (hauth : secret_ok env req.secret = true)
    (hec : ¬ (req.exam_code = [] ∨ pystrip req.exam_code = []))
    (hsid : ¬ (req.student_id = [] ∨ pystrip req.student_id = []))
    (hnone : ∀ b ∈ store, b.pathname ≠ single_path req) :
    download_single env req store fetch = SingleResult.notFound := by
  rw [download_single, if_neg (by simp [hauth]), if_neg hec, if_neg hsid]
  have hfind : (store.filter (fun b => (single_path req).isPrefixOf b.pathname)).find?
      (fun b => b.pathname == single_path req) = none := by
    rw [List.find?_eq_none]
    intro b hb
    simp [hnone b (List.mem_filter.mp hb).1]
  rw [hfind]

/-- C9 witness: a store holding only a blob whose pathname strictly
extends the requested path yields 404 for the shorter id. -/
theorem single_exact_match_witness :
    download_single (some (str "s")) ⟨str "EX", str "1", str "s"⟩
      [⟨str "submissions/EX_1.zipX", str "u"⟩] fetchFail = SingleResult.notFound :=
  single_exact_match (some (str "s")) ⟨str "EX", str "1", str "s"⟩
    [⟨str "submissions/EX_1.zipX", str "u"⟩] fetchFail
    (by decide) (by decide) (by decide) (by decide)

end PyExam
